import Mathlib

/-!
Verification development for the embedding-generation pipeline in
`scripts/generate_embeddings.py`.

The script turns a list of product records (parsed from a JSON array) into
vector-search datapoints: it builds an embedding prompt from text fields,
derives categorical and numeric restrict metadata, assembles a datapoint
with an id, the embedding vector and display metadata, serializes each
datapoint as one JSON line and writes the same line to two output files.

Modelling conventions of the shallow embedding:
* Python/JSON numbers are modelled as rationals (`ℚ`); `float()` applied to
  a number is the identity on the value, which matches the exact-value
  round-trip the script relies on.
* The numeric fields `price` and `rating` hold arbitrary JSON scalar values
  (`JVal`), since the script's `float(...)` conversion can fail on them;
  compound JSON values (arrays/objects) are omitted from the scalar domain.
* The string-typed fields are modelled with `Option String` (absent = `none`),
  and `styleTags` with `Option (List String)`, following the record layout
  the script reads.
* `float(...)` raising `ValueError`/`TypeError` is modelled by
  `Except String`; the embedding call is an opaque function
  `embed : String → List ℚ`, and the JSON rendering of a number is an
  opaque function `numStr : ℚ → String`, both passed in as parameters.
-/

/-- A JSON scalar value as Python sees it after `json.loads`. -/
inductive JVal where
  | null : JVal
  | bool : Bool → JVal
  | num : ℚ → JVal
  | str : String → JVal
deriving DecidableEq

/-- Python truthiness of a JSON scalar: `None`, `False`, `0` and `""` are
falsy, everything else is truthy. -/
def jTruthy : JVal → Bool
  | .null => false
  | .bool b => b
  | .num q => q != 0
  | .str s => s != ""

/-- One product record of the input JSON array, with the fields the script
reads.  Every field is optional (`none` models an absent key). -/
structure ProductRecord where
  name : Option String := none
  description : Option String := none
  styleTags : Option (List String) := none
  category : Option String := none
  subcategory : Option String := none
  brand : Option String := none
  color : Option String := none
  occasion : Option String := none
  season : Option String := none
  sku : Option String := none
  currency : Option String := none
  imageUrl : Option String := none
  price : Option JVal := none
  rating : Option JVal := none
deriving DecidableEq

/-- The function `build_embedding_prompt` from the script: the five candidate parts in
fixed order, with `styleTags` space-joined, then `"\n".join(filter(None, parts))`
keeping only the non-empty parts. -/
def build_embedding_prompt (product : ProductRecord) : String :=
  let parts : List String := [
    product.name.getD "",
    product.description.getD "",
    String.intercalate " " (product.styleTags.getD []),
    product.category.getD "",
    product.occasion.getD ""]
  String.intercalate "\n" (parts.filter (fun s => s != ""))

/-- A categorical restrict entry `{"namespace": ..., "allowList": [...]}`.
The JSON key `namespace` is a Lean keyword, hence the field name `nspace`. -/
structure CategoricalRestrict where
  nspace : String
  allowList : List String
deriving DecidableEq

/-- The inner `add` helper of `build_metadata`: append one restrict entry
when the value is truthy (present and non-empty). -/
def addRestrict (ns : String) (value : Option String) : List CategoricalRestrict :=
  match value with
  | some s => if s != "" then [{ nspace := ns, allowList := [s] }] else []
  | none => []

/-- The function `build_metadata` from the script: the six categorical namespaces probed
in fixed order, each contributing at most one entry. -/
def build_metadata (product : ProductRecord) : List CategoricalRestrict :=
  addRestrict "category" product.category
    ++ addRestrict "subcategory" product.subcategory
    ++ addRestrict "brand" product.brand
    ++ addRestrict "color" product.color
    ++ addRestrict "occasion" product.occasion
    ++ addRestrict "season" product.season

/-- A numeric restrict entry `{"namespace": ..., "valueDouble": ...}`. -/
structure NumericRestrict where
  nspace : String
  valueDouble : ℚ
deriving DecidableEq

/-- Digit list to natural number, most significant digit first. -/
def digitsToNat (cs : List Char) : ℕ :=
  cs.foldl (fun n c => 10 * n + (c.toNat - 48)) 0

/-- Mantissa of a Python float literal: `digits`, `digits.digits`,
`digits.` or `.digits`. -/
def parseMantissa (cs : List Char) : Option ℚ :=
  let ip := cs.takeWhile (fun c => c.isDigit)
  let rest := cs.dropWhile (fun c => c.isDigit)
  match rest with
  | [] => if ip.isEmpty then none else some (digitsToNat ip)
  | '.' :: rest2 =>
    let fp := rest2.takeWhile (fun c => c.isDigit)
    let rest3 := rest2.dropWhile (fun c => c.isDigit)
    if rest3.isEmpty && (!ip.isEmpty || !fp.isEmpty) then
      some ((digitsToNat ip : ℚ) + (digitsToNat fp : ℚ) / (10 : ℚ) ^ fp.length)
    else none
  | _ => none

/-- The core of Python's `float(str)` grammar: optional sign followed by a
decimal mantissa.  (Exponents, `inf`/`nan`, underscores and surrounding
whitespace are outside the modelled grammar; the script's claims only rely
on the conversion being able to fail.) -/
def parsePyFloat (s : String) : Option ℚ :=
  match s.data with
  | '+' :: cs => parseMantissa cs
  | '-' :: cs => (parseMantissa cs).map (fun q => -q)
  | cs => parseMantissa cs

/-- Python's `float(...)` on a JSON scalar: identity on numbers, `0`/`1` on
booleans, string parsing on strings, and failure (`TypeError`) on `None`. -/
def pyFloat : JVal → Option ℚ
  | .null => none
  | .bool b => some (if b then 1 else 0)
  | .num q => some q
  | .str s => parsePyFloat s

/-- One arm of `build_numeric_metadata`: `if v := product.get(ns):` followed
by `float(v)`, which either contributes one entry or raises. -/
def numericEntries (ns : String) (v : Option JVal) : Except String (List NumericRestrict) :=
  match v with
  | some x =>
    if jTruthy x then
      match pyFloat x with
      | some q => .ok [{ nspace := ns, valueDouble := q }]
      | none => .error ("could not convert value to float: " ++ ns)
    else .ok []
  | none => .ok []

/-- The function `build_numeric_metadata` from the script: probe `price` then `rating`;
a failed `float(...)` conversion aborts (Python raises out of the function). -/
def build_numeric_metadata (product : ProductRecord) : Except String (List NumericRestrict) := do
  let priceEntries ← numericEntries "price" product.price
  let ratingEntries ← numericEntries "rating" product.rating
  pure (priceEntries ++ ratingEntries)

/-- Python's `a or b` on two optional strings, as used for the datapoint id:
the first operand wins when it is truthy (present and non-empty). -/
def pyOr (a b : Option String) : Option String :=
  match a with
  | some s => if s != "" then some s else b
  | none => b

/-- The `metadata` object of a datapoint: the five display fields copied
through verbatim from the record (absent fields stay absent here and are
rendered as JSON `null`). -/
structure Metadata where
  name : Option String
  description : Option String
  price : Option JVal
  currency : Option String
  imageUrl : Option String
deriving DecidableEq

/-- One assembled datapoint, mirroring the dict literal in `main`. -/
structure Datapoint where
  id : Option String
  featureVector : List ℚ
  restricts : List CategoricalRestrict
  numericRestricts : List NumericRestrict
  crowdingAttribute : String
  metadata : Metadata
deriving DecidableEq

/-- The pure part of the datapoint dict literal in `main`, given an already
computed embedding vector and numeric restrict list. -/
def datapointOf (product : ProductRecord) (embedding : List ℚ)
    (numeric : List NumericRestrict) : Datapoint :=
  { id := pyOr product.sku product.name,
    featureVector := embedding,
    restricts := build_metadata product,
    numericRestricts := numeric,
    crowdingAttribute := product.category.getD "",
    metadata := { name := product.name,
                  description := product.description,
                  price := product.price,
                  currency := product.currency,
                  imageUrl := product.imageUrl } }

/-- Assembling the datapoint dict in `main`; the embedded
`build_numeric_metadata` call can raise, which aborts the record. -/
def assembleDatapoint (product : ProductRecord) (embedding : List ℚ) :
    Except String Datapoint :=
  (build_numeric_metadata product).map (datapointOf product embedding)

/-- Lower-case hexadecimal digit, for the `\uXXXX` escapes of `json.dumps`. -/
def hexDigit (n : ℕ) : Char :=
  "0123456789abcdef".data.getD (n % 16) '0'

/-- Four-digit hexadecimal rendering of a code unit. -/
def hex4 (n : ℕ) : String :=
  String.mk [hexDigit (n / 4096), hexDigit (n / 256), hexDigit (n / 16), hexDigit n]

/-- Escaping of one character inside a JSON string literal, following
`json.dumps` with its default `ensure_ascii=True`: the two-character escapes
for quote, backslash and common control characters, `\uXXXX` for the other
control and all non-ASCII characters (as a surrogate pair beyond the BMP). -/
def escapeChar (c : Char) : String :=
  if c = '\"' then "\\\""
  else if c = '\\' then "\\\\"
  else if c = '\n' then "\\n"
  else if c = '\r' then "\\r"
  else if c = '\t' then "\\t"
  else if c = '\x08' then "\\b"
  else if c = '\x0c' then "\\f"
  else if c.toNat < 32 then "\\u" ++ hex4 c.toNat
  else if c.toNat < 127 then String.mk [c]
  else if c.toNat < 65536 then "\\u" ++ hex4 c.toNat
  else "\\u" ++ hex4 (55296 + (c.toNat - 65536) / 1024)
    ++ "\\u" ++ hex4 (56320 + (c.toNat - 65536) % 1024)

/-- Escape every character of a character list in turn. -/
def escapeList : List Char → String
  | [] => ""
  | c :: cs => escapeChar c ++ escapeList cs

/-- JSON rendering of a string: escaped body between double quotes. -/
def jsonStr (s : String) : String :=
  "\"" ++ escapeList s.data ++ "\""

/-- Comma-space separated join, the default item separator of `json.dumps`. -/
def joinComma : List String → String
  | [] => ""
  | [s] => s
  | s :: rest => s ++ ", " ++ joinComma rest

/-- JSON rendering of an array from already rendered items. -/
def renderArr (items : List String) : String :=
  "[" ++ joinComma items ++ "]"

/-- JSON rendering of an object from key/rendered-value pairs, with the
default `": "` key separator of `json.dumps`. -/
def renderObj (pairs : List (String × String)) : String :=
  "\x7b" ++ joinComma (pairs.map (fun kv => jsonStr kv.1 ++ ": " ++ kv.2)) ++ "\x7d"

/-- JSON rendering of a scalar value; numbers go through the opaque number
renderer `numStr` (CPython's `repr`-based float/int formatting). -/
def jsonJVal (numStr : ℚ → String) : JVal → String
  | .null => "null"
  | .bool b => if b then "true" else "false"
  | .num q => numStr q
  | .str s => jsonStr s

/-- JSON rendering of an optional string; Python `None` becomes `null`. -/
def jsonOptStr : Option String → String
  | none => "null"
  | some s => jsonStr s

/-- JSON rendering of an optional scalar; Python `None` becomes `null`. -/
def jsonOptJVal (numStr : ℚ → String) : Option JVal → String
  | none => "null"
  | some v => jsonJVal numStr v

/-- The key/rendered-value pairs of the `metadata` object: all five keys are
always present, absent record fields showing up as explicit `null`. -/
def metadataPairs (numStr : ℚ → String) (m : Metadata) : List (String × String) :=
  [("name", jsonOptStr m.name),
   ("description", jsonOptStr m.description),
   ("price", jsonOptJVal numStr m.price),
   ("currency", jsonOptStr m.currency),
   ("imageUrl", jsonOptStr m.imageUrl)]

/-- JSON rendering of one categorical restrict entry. -/
def dumpsRestrict (r : CategoricalRestrict) : String :=
  renderObj [("namespace", jsonStr r.nspace),
             ("allowList", renderArr (r.allowList.map jsonStr))]

/-- JSON rendering of one numeric restrict entry. -/
def dumpsNumericRestrict (numStr : ℚ → String) (r : NumericRestrict) : String :=
  renderObj [("namespace", jsonStr r.nspace),
             ("valueDouble", numStr r.valueDouble)]

/-- Rendering of `json.dumps(datapoint)`: the six keys in the dict-literal order of the
script. -/
def dumpsDatapoint (numStr : ℚ → String) (dp : Datapoint) : String :=
  renderObj [
    ("id", jsonOptStr dp.id),
    ("featureVector", renderArr (dp.featureVector.map numStr)),
    ("restricts", renderArr (dp.restricts.map dumpsRestrict)),
    ("numericRestricts", renderArr (dp.numericRestricts.map (dumpsNumericRestrict numStr))),
    ("crowdingTag", renderObj [("crowdingAttribute", jsonStr dp.crowdingAttribute)]),
    ("metadata", renderObj (metadataPairs numStr dp.metadata))]

/-- Contents of the two output files (`kiko-embeddings.jsonl` and
`kiko-embeddings.json`) accumulated so far. -/
structure OutState where
  jsonl : String
  ingest : String
deriving DecidableEq

/-- The two `write(json_line + "\n")` calls of the loop body. -/
def writeBoth (line : String) (st : OutState) : OutState :=
  { jsonl := st.jsonl ++ line ++ "\n", ingest := st.ingest ++ line ++ "\n" }

/-- One iteration of the loop in `main`: build the prompt, obtain the
embedding from the opaque `embed` collaborator, assemble the datapoint
(which can raise inside `build_numeric_metadata`), serialize it once and
write the same line to both outputs. -/
def pipelineStep (numStr : ℚ → String) (embed : String → List ℚ)
    (st : OutState) (product : ProductRecord) : Except String OutState :=
  let prompt := build_embedding_prompt product
  let embedding := embed prompt
  (assembleDatapoint product embedding).map
    (fun dp => writeBoth (dumpsDatapoint numStr dp) st)

/-- The whole loop of `main` over the product list.  An uncaught exception
stops the run; the error carries the output state already written at that
point (the `with` block closes and flushes both files either way). -/
def main_loop (numStr : ℚ → String) (embed : String → List ℚ)
    (st : OutState) : List ProductRecord → Except (String × OutState) OutState
  | [] => .ok st
  | product :: rest =>
    match pipelineStep numStr embed st product with
    | .ok st2 => main_loop numStr embed st2 rest
    | .error e => .error (e, st)

/-- Concatenation of a list of already newline-terminated lines. -/
def linesConcat : List String → String
  | [] => ""
  | s :: rest => s ++ linesConcat rest

/-- The numeric restricts of a record whose conversion is known to succeed. -/
def okNumeric (product : ProductRecord) : List NumericRestrict :=
  ((build_numeric_metadata product).toOption).getD []

/-- The single output line a record contributes, newline terminator
included: a pure function of that one record (plus the two opaque
collaborators). -/
def lineFor (numStr : ℚ → String) (embed : String → List ℚ)
    (product : ProductRecord) : String :=
  dumpsDatapoint numStr
    (datapointOf product (embed (build_embedding_prompt product)) (okNumeric product))
    ++ "\n"

/-- A string with no raw newline character (every `json.dumps` output has
this shape, which is what makes the output one line per record). -/
def noNL (s : String) : Prop := '\n' ∉ s.data

instance (s : String) : Decidable (noNL s) :=
  inferInstanceAs (Decidable ('\n' ∉ s.data))

/-- Number of raw newline characters, i.e. number of terminated lines. -/
def countNL (s : String) : ℕ := s.data.count '\n'

/-- Spec-side: the contribution of one optional string field to the prompt,
as a list of zero or one lines. -/
def optContribution (v : Option String) : List String :=
  match v with
  | some s => if s != "" then [s] else []
  | none => []

/-- Spec-side: the contribution of the `styleTags` sequence to the prompt. -/
def tagsContribution (v : Option (List String)) : List String :=
  let joined := String.intercalate " " (v.getD [])
  if joined != "" then [joined] else []

/-- Spec-side: the prompt lines as the spec words them — one contribution
per present, non-empty field, in the fixed order name, description,
styleTags, category, occasion. -/
def promptContributions (p : ProductRecord) : List String :=
  optContribution p.name ++ optContribution p.description
    ++ tagsContribution p.styleTags ++ optContribution p.category
    ++ optContribution p.occasion

/-- Spec-side: the six categorical namespaces with their source fields, in
the fixed order of the spec. -/
def catFields (p : ProductRecord) : List (String × Option String) :=
  [("category", p.category), ("subcategory", p.subcategory),
   ("brand", p.brand), ("color", p.color),
   ("occasion", p.occasion), ("season", p.season)]

/-- Spec-side: a field is present and non-empty. -/
def presentNonEmpty (v : Option String) : Bool :=
  match v with
  | some s => s != ""
  | none => false

/-- Spec-side: a numeric field that is missing, null, empty, or an actual
number or boolean — i.e. anything except a non-empty string or other value
on which `float(...)` could raise. -/
def benignNum (v : Option JVal) : Prop :=
  v = none ∨ v = some .null ∨ v = some (.str "")
    ∨ (∃ q, v = some (.num q)) ∨ (∃ b, v = some (.bool b))

instance {ε α : Type} [DecidableEq ε] [DecidableEq α] : DecidableEq (Except ε α) := fun a b =>
  match a, b with
  | .ok x, .ok y => decidable_of_iff (x = y) (by simp)
  | .error x, .error y => decidable_of_iff (x = y) (by simp)
  | .ok _, .error _ => isFalse (by simp)
  | .error _, .ok _ => isFalse (by simp)

-- Sanity checks of the executable model on concrete inputs.
example : build_embedding_prompt
    { name := some "Tee", styleTags := some ["red", "cotton"], category := some "tops" }
    = "Tee\nred cotton\ntops" := by decide
example : build_embedding_prompt {} = "" := by decide
example : build_metadata { category := some "tops", color := some "" }
    = [{ nspace := "category", allowList := ["tops"] }] := by decide
example : build_numeric_metadata { price := some (.num (4999/100)), rating := some (.num (9/2)) }
    = .ok [{ nspace := "price", valueDouble := 4999/100 },
           { nspace := "rating", valueDouble := 9/2 }] := by
  simp [build_numeric_metadata, numericEntries, jTruthy, pyFloat, Bind.bind, Except.bind,
    Pure.pure, Except.pure]
example : build_numeric_metadata { price := some (.num 0) } = .ok [] := by
  simp [build_numeric_metadata, numericEntries, jTruthy, pyFloat, Bind.bind, Except.bind,
    Pure.pure, Except.pure]
example : build_numeric_metadata { price := some (.str "abc") }
    = .error "could not convert value to float: price" := by
  simp [build_numeric_metadata, numericEntries, jTruthy, pyFloat, Bind.bind, Except.bind,
    Pure.pure, Except.pure, parsePyFloat, parseMantissa]
example : parsePyFloat "49.99" = some (4999/100) := by
  simp [parsePyFloat, parseMantissa, digitsToNat]
  norm_num
example : pyOr (some "SKU1") (some "Shirt") = some "SKU1" := by decide
example : pyOr (some "") (some "Shirt") = some "Shirt" := by decide
example : pyOr none none = none := by decide

theorem filter_five {α : Type} (pred : α → Bool) (a b c d e : α) :
    [a, b, c, d, e].filter pred
      = (if pred a then [a] else []) ++ (if pred b then [b] else [])
        ++ (if pred c then [c] else []) ++ (if pred d then [d] else [])
        ++ (if pred e then [e] else []) := by
  simp only [List.filter]
  split_ifs <;> simp_all

theorem optContribution_eq (v : Option String) :
    (if (v.getD "" != "") = true then [v.getD ""] else []) = optContribution v := by
  cases v <;> simp [optContribution]

theorem tagsContribution_eq (v : Option (List String)) :
    (if (String.intercalate " " (v.getD []) != "") = true
      then [String.intercalate " " (v.getD [])] else []) = tagsContribution v := by
  cases v <;> simp [tagsContribution]

/-- The filtered parts list of `build_embedding_prompt` is exactly the
spec's per-field contribution list. -/
theorem prompt_parts_eq (p : ProductRecord) :
    [p.name.getD "", p.description.getD "",
     String.intercalate " " (p.styleTags.getD []),
     p.category.getD "", p.occasion.getD ""].filter (fun s => s != "")
      = promptContributions p := by
  rw [filter_five]
  rw [promptContributions, ← optContribution_eq p.name, ← optContribution_eq p.description,
    ← tagsContribution_eq p.styleTags, ← optContribution_eq p.category,
    ← optContribution_eq p.occasion]

/-- The prompt `build_embedding_prompt` is the newline join of the spec's contribution
list. -/
theorem build_embedding_prompt_eq (p : ProductRecord) :
    build_embedding_prompt p = String.intercalate "\n" (promptContributions p) := by
  rw [build_embedding_prompt]
  rw [prompt_parts_eq]

/-- No contribution line is blank. -/
theorem promptContributions_ne_empty (p : ProductRecord) :
    "" ∉ promptContributions p := by
  intro h
  simp only [promptContributions, List.mem_append] at h
  have hopt : ∀ v : Option String, "" ∉ optContribution v := by
    intro v hv
    cases v with
    | none => simp [optContribution] at hv
    | some s =>
      simp only [optContribution] at hv
      split at hv <;> simp_all
  have htags : "" ∉ tagsContribution p.styleTags := by
    intro hv
    simp only [tagsContribution] at hv
    split at hv <;> simp_all
  rcases h with ((((h | h) | h) | h) | h)
  · exact hopt p.name h
  · exact hopt p.description h
  · exact htags h
  · exact hopt p.category h
  · exact hopt p.occasion h

theorem addRestrict_eq (ns : String) (v : Option String) :
    addRestrict ns v
      = if presentNonEmpty v then [{ nspace := ns, allowList := [v.getD ""] }] else [] := by
  cases v <;> simp [addRestrict, presentNonEmpty]

/-- The list `build_metadata` is the filter-then-map over the fixed namespace list
that the spec describes. -/
theorem build_metadata_eq (p : ProductRecord) :
    build_metadata p
      = ((catFields p).filter (fun kv => presentNonEmpty kv.2)).map
          (fun kv => { nspace := kv.1, allowList := [kv.2.getD ""] }) := by
  rw [build_metadata, catFields]
  rw [addRestrict_eq, addRestrict_eq, addRestrict_eq, addRestrict_eq, addRestrict_eq,
    addRestrict_eq]
  simp only [List.filter, List.map]
  split_ifs <;> simp_all

/-- Full case analysis of one numeric arm on success. -/
theorem numericEntries_ok_iff (ns : String) (v : Option JVal) (l : List NumericRestrict) :
    numericEntries ns v = .ok l ↔
      (l = [] ∧ (v = none ∨ ∃ x, v = some x ∧ jTruthy x = false))
        ∨ (∃ x q, v = some x ∧ jTruthy x = true ∧ pyFloat x = some q
            ∧ l = [{ nspace := ns, valueDouble := q }]) := by
  cases v with
  | none => simp [numericEntries]
  | some x =>
    by_cases ht : jTruthy x
    · cases hf : pyFloat x with
      | none => simp [numericEntries, ht, hf]
      | some q =>
        simp [numericEntries, ht, hf]
        tauto
    · simp [numericEntries, ht]

/-- Full case analysis of one numeric arm on failure. -/
theorem numericEntries_error_iff (ns : String) (v : Option JVal) (e : String) :
    numericEntries ns v = .error e ↔
      e = "could not convert value to float: " ++ ns
        ∧ ∃ x, v = some x ∧ jTruthy x = true ∧ pyFloat x = none := by
  cases v with
  | none => simp [numericEntries]
  | some x =>
    by_cases ht : jTruthy x
    · cases hf : pyFloat x with
      | none =>
        simp [numericEntries, ht, hf]
        tauto
      | some q => simp [numericEntries, ht, hf]
    · simp [numericEntries, ht]

/-- The builder `build_numeric_metadata` succeeds exactly when both arms do, and
returns their concatenation. -/
theorem build_numeric_metadata_ok_iff (p : ProductRecord) (l : List NumericRestrict) :
    build_numeric_metadata p = .ok l ↔
      ∃ lp lr, numericEntries "price" p.price = .ok lp
        ∧ numericEntries "rating" p.rating = .ok lr ∧ l = lp ++ lr := by
  rw [build_numeric_metadata]
  cases h1 : numericEntries "price" p.price <;>
    cases h2 : numericEntries "rating" p.rating <;>
      simp [Bind.bind, Except.bind, Pure.pure, Except.pure, h1, h2]
  tauto

/-- The builder `build_numeric_metadata` fails exactly when one arm does (the `price`
arm short-circuiting the `rating` arm). -/
theorem build_numeric_metadata_error_iff (p : ProductRecord) (e : String) :
    build_numeric_metadata p = .error e ↔
      numericEntries "price" p.price = .error e
        ∨ ((∃ lp, numericEntries "price" p.price = .ok lp)
            ∧ numericEntries "rating" p.rating = .error e) := by
  rw [build_numeric_metadata]
  cases h1 : numericEntries "price" p.price <;>
    cases h2 : numericEntries "rating" p.rating <;>
      simp [Bind.bind, Except.bind, Pure.pure, Except.pure, h1, h2]

theorem noNL_append (a b : String) (ha : noNL a) (hb : noNL b) : noNL (a ++ b) := by
  simp only [noNL, String.data_append, List.mem_append] at *
  tauto

theorem hexDigit_ne_nl (n : ℕ) : hexDigit n ≠ '\n' := by
  have h : n % 16 < 16 := Nat.mod_lt _ (by norm_num)
  rw [hexDigit]
  generalize n % 16 = k at h
  interval_cases k <;> decide

theorem noNL_hex4 (n : ℕ) : noNL (hex4 n) := by
  rw [hex4]
  intro h
  simp only [String.mk, List.mem_cons, List.not_mem_nil, or_false] at h
  rcases h with h | h | h | h <;> exact hexDigit_ne_nl _ h.symm

theorem noNL_escapeChar (c : Char) : noNL (escapeChar c) := by
  unfold escapeChar
  by_cases h1 : c = '\"'
  · rw [if_pos h1]; decide
  rw [if_neg h1]
  by_cases h2 : c = '\\'
  · rw [if_pos h2]; decide
  rw [if_neg h2]
  by_cases h3 : c = '\n'
  · rw [if_pos h3]; decide
  rw [if_neg h3]
  by_cases h4 : c = '\r'
  · rw [if_pos h4]; decide
  rw [if_neg h4]
  by_cases h5 : c = '\t'
  · rw [if_pos h5]; decide
  rw [if_neg h5]
  by_cases h6 : c = '\x08'
  · rw [if_pos h6]; decide
  rw [if_neg h6]
  by_cases h7 : c = '\x0c'
  · rw [if_pos h7]; decide
  rw [if_neg h7]
  by_cases h8 : c.toNat < 32
  · rw [if_pos h8]
    exact noNL_append _ _ (by decide) (noNL_hex4 _)
  rw [if_neg h8]
  by_cases h9 : c.toNat < 127
  · rw [if_pos h9]
    intro hmem
    simp only [String.mk, List.mem_cons, List.not_mem_nil, or_false] at hmem
    exact h3 hmem.symm
  rw [if_neg h9]
  by_cases h10 : c.toNat < 65536
  · rw [if_pos h10]
    exact noNL_append _ _ (by decide) (noNL_hex4 _)
  rw [if_neg h10]
  exact noNL_append _ _
    (noNL_append _ _ (noNL_append _ _ (by decide) (noNL_hex4 _)) (by decide))
    (noNL_hex4 _)

theorem noNL_escapeList (cs : List Char) : noNL (escapeList cs) := by
  induction cs with
  | nil => decide
  | cons c rest ih => exact noNL_append _ _ (noNL_escapeChar c) ih

theorem noNL_jsonStr (s : String) : noNL (jsonStr s) :=
  noNL_append _ _ (noNL_append _ _ (by decide) (noNL_escapeList s.data)) (by decide)

theorem noNL_joinComma (l : List String) (h : ∀ s ∈ l, noNL s) : noNL (joinComma l) := by
  induction l with
  | nil => decide
  | cons a rest ih =>
    cases rest with
    | nil =>
      rw [joinComma]
      exact h a (by simp)
    | cons b rest2 =>
      have hstep : joinComma (a :: b :: rest2) = a ++ ", " ++ joinComma (b :: rest2) := rfl
      rw [hstep]
      exact noNL_append _ _
        (noNL_append _ _ (h a (by simp)) (by decide))
        (ih (fun s hs => h s (List.mem_cons_of_mem a hs)))

theorem noNL_renderArr (items : List String) (h : ∀ s ∈ items, noNL s) :
    noNL (renderArr items) :=
  noNL_append _ _ (noNL_append _ _ (by decide) (noNL_joinComma items h)) (by decide)

theorem noNL_renderObj (pairs : List (String × String))
    (h : ∀ kv ∈ pairs, noNL kv.2) : noNL (renderObj pairs) := by
  refine noNL_append _ _ (noNL_append _ _ (by decide) (noNL_joinComma _ ?_)) (by decide)
  intro s hs
  rcases List.mem_map.mp hs with ⟨kv, hkv, rfl⟩
  exact noNL_append _ _ (noNL_append _ _ (noNL_jsonStr kv.1) (by decide)) (h kv hkv)

theorem noNL_jsonOptStr (v : Option String) : noNL (jsonOptStr v) := by
  cases v with
  | none => decide
  | some s => exact noNL_jsonStr s

theorem noNL_jsonJVal (numStr : ℚ → String) (hn : ∀ q, noNL (numStr q)) (v : JVal) :
    noNL (jsonJVal numStr v) := by
  cases v with
  | null => show noNL "null"; decide
  | bool b =>
    cases b with
    | false => show noNL "false"; decide
    | true => show noNL "true"; decide
  | num q => exact hn q
  | str s => exact noNL_jsonStr s

theorem noNL_jsonOptJVal (numStr : ℚ → String) (hn : ∀ q, noNL (numStr q))
    (v : Option JVal) : noNL (jsonOptJVal numStr v) := by
  cases v with
  | none => show noNL "null"; decide
  | some x => exact noNL_jsonJVal numStr hn x

theorem noNL_dumpsRestrict (r : CategoricalRestrict) : noNL (dumpsRestrict r) := by
  refine noNL_renderObj _ ?_
  intro kv hkv
  simp only [List.mem_cons, List.not_mem_nil, or_false] at hkv
  rcases hkv with rfl | rfl
  · exact noNL_jsonStr _
  · refine noNL_renderArr _ ?_
    intro s hs
    rcases List.mem_map.mp hs with ⟨t, _, rfl⟩
    exact noNL_jsonStr t

theorem noNL_dumpsNumericRestrict (numStr : ℚ → String) (hn : ∀ q, noNL (numStr q))
    (r : NumericRestrict) : noNL (dumpsNumericRestrict numStr r) := by
  refine noNL_renderObj _ ?_
  intro kv hkv
  simp only [List.mem_cons, List.not_mem_nil, or_false] at hkv
  rcases hkv with rfl | rfl
  · exact noNL_jsonStr _
  · exact hn _

/-- The serialized datapoint never contains a raw newline — `json.dumps`
escapes every control character, so each datapoint really is one line. -/
theorem noNL_dumpsDatapoint (numStr : ℚ → String) (hn : ∀ q, noNL (numStr q))
    (dp : Datapoint) : noNL (dumpsDatapoint numStr dp) := by
  refine noNL_renderObj _ ?_
  intro kv hkv
  simp only [dumpsDatapoint, List.mem_cons, List.not_mem_nil, or_false] at hkv
  rcases hkv with rfl | rfl | rfl | rfl | rfl | rfl
  · exact noNL_jsonOptStr _
  · refine noNL_renderArr _ ?_
    intro s hs
    rcases List.mem_map.mp hs with ⟨q, _, rfl⟩
    exact hn q
  · refine noNL_renderArr _ ?_
    intro s hs
    rcases List.mem_map.mp hs with ⟨r, _, rfl⟩
    exact noNL_dumpsRestrict r
  · refine noNL_renderArr _ ?_
    intro s hs
    rcases List.mem_map.mp hs with ⟨r, _, rfl⟩
    exact noNL_dumpsNumericRestrict numStr hn r
  · refine noNL_renderObj _ ?_
    intro kv2 hkv2
    simp only [List.mem_cons, List.not_mem_nil, or_false] at hkv2
    rcases hkv2 with rfl
    exact noNL_jsonStr _
  · refine noNL_renderObj _ ?_
    intro kv2 hkv2
    simp only [metadataPairs, List.mem_cons, List.not_mem_nil, or_false] at hkv2
    rcases hkv2 with rfl | rfl | rfl | rfl | rfl
    · exact noNL_jsonOptStr _
    · exact noNL_jsonOptStr _
    · exact noNL_jsonOptJVal numStr hn _
    · exact noNL_jsonOptStr _
    · exact noNL_jsonOptStr _

theorem countNL_append (a b : String) : countNL (a ++ b) = countNL a + countNL b := by
  simp [countNL, String.data_append]

theorem countNL_of_noNL (s : String) (h : noNL s) : countNL s = 0 := by
  simpa [countNL, List.count_eq_zero] using h

theorem main_loop_cons_of_ok (numStr : ℚ → String) (embed : String → List ℚ)
    (st st1 : OutState) (p : ProductRecord) (rest : List ProductRecord)
    (h : pipelineStep numStr embed st p = .ok st1) :
    main_loop numStr embed st (p :: rest) = main_loop numStr embed st1 rest := by
  rw [main_loop, h]

theorem main_loop_cons_of_error (numStr : ℚ → String) (embed : String → List ℚ)
    (st : OutState) (p : ProductRecord) (rest : List ProductRecord) (e : String)
    (h : pipelineStep numStr embed st p = .error e) :
    main_loop numStr embed st (p :: rest) = .error (e, st) := by
  rw [main_loop, h]

/-- Shape of a successful pipeline step: a datapoint was assembled and the
same serialized line went to both outputs. -/
theorem pipelineStep_ok_shape (numStr : ℚ → String) (embed : String → List ℚ)
    (st st2 : OutState) (p : ProductRecord)
    (h : pipelineStep numStr embed st p = .ok st2) :
    ∃ dp, assembleDatapoint p (embed (build_embedding_prompt p)) = .ok dp
      ∧ st2 = writeBoth (dumpsDatapoint numStr dp) st := by
  rw [pipelineStep] at h
  cases ha : assembleDatapoint p (embed (build_embedding_prompt p)) with
  | error e => rw [ha] at h; exact absurd h (by simp [Except.map])
  | ok dp =>
    rw [ha] at h
    simp only [Except.map, Except.ok.injEq] at h
    exact ⟨dp, rfl, h.symm⟩

/-- When every record's numeric conversion succeeds, the loop succeeds and
each output is the initial content followed by one line per record, in
input order. -/
theorem main_loop_ok (numStr : ℚ → String) (embed : String → List ℚ)
    (products : List ProductRecord) (st : OutState)
    (hok : ∀ p ∈ products, ∃ l, build_numeric_metadata p = .ok l) :
    main_loop numStr embed st products
      = .ok { jsonl := st.jsonl ++ linesConcat (products.map (lineFor numStr embed)),
              ingest := st.ingest ++ linesConcat (products.map (lineFor numStr embed)) } := by
  induction products generalizing st with
  | nil => simp [main_loop, linesConcat, List.map_nil]
  | cons p rest ih =>
    obtain ⟨l, hl⟩ := hok p (by simp)
    have hnum : okNumeric p = l := by rw [okNumeric, hl]; rfl
    have hstep : pipelineStep numStr embed st p
        = .ok (writeBoth
            (dumpsDatapoint numStr
              (datapointOf p (embed (build_embedding_prompt p)) (okNumeric p))) st) := by
      rw [pipelineStep, assembleDatapoint, hl, hnum]
      rfl
    rw [main_loop_cons_of_ok numStr embed st _ p rest hstep]
    rw [ih _ (fun q hq => hok q (List.mem_cons_of_mem p hq))]
    simp only [List.map_cons, linesConcat, lineFor, writeBoth, Except.ok.injEq]
    simp [String.append_assoc]

theorem countNL_linesConcat (lines : List String) (h : ∀ s ∈ lines, countNL s = 1) :
    countNL (linesConcat lines) = lines.length := by
  induction lines with
  | nil => simp [linesConcat, countNL]
  | cons a rest ih =>
    rw [linesConcat, countNL_append, ih (fun s hs => h s (List.mem_cons_of_mem a hs)),
      h a (by simp)]
    simp [List.length_cons, Nat.add_comm]

/-- Each record's contribution is exactly one newline-terminated line. -/
theorem countNL_lineFor (numStr : ℚ → String) (embed : String → List ℚ)
    (hn : ∀ q, noNL (numStr q)) (p : ProductRecord) :
    countNL (lineFor numStr embed p) = 1 := by
  rw [lineFor, countNL_append,
    countNL_of_noNL _ (noNL_dumpsDatapoint numStr hn _)]
  decide

/-- The loop writes the same bytes to both outputs, step by step: whatever
state it stops in — success or an uncaught per-record error — the two
output contents agree if they agreed initially. -/
theorem main_loop_sync (numStr : ℚ → String) (embed : String → List ℚ)
    (products : List ProductRecord) (st : OutState) (h : st.jsonl = st.ingest) :
    (∀ st2, main_loop numStr embed st products = .ok st2 → st2.jsonl = st2.ingest)
      ∧ (∀ e st2, main_loop numStr embed st products = .error (e, st2)
          → st2.jsonl = st2.ingest) := by
  induction products generalizing st with
  | nil =>
    constructor
    · intro st2 h2
      rw [main_loop] at h2
      cases h2
      exact h
    · intro e st2 h2
      rw [main_loop] at h2
      cases h2
  | cons p rest ih =>
    cases hp : pipelineStep numStr embed st p with
    | ok st1 =>
      obtain ⟨dp, _, hshape⟩ := pipelineStep_ok_shape numStr embed st st1 p hp
      have h1 : st1.jsonl = st1.ingest := by rw [hshape, writeBoth]; simp [h]
      constructor
      · intro st2 h2
        rw [main_loop_cons_of_ok numStr embed st st1 p rest hp] at h2
        exact (ih st1 h1).1 st2 h2
      · intro e st2 h2
        rw [main_loop_cons_of_ok numStr embed st st1 p rest hp] at h2
        exact (ih st1 h1).2 e st2 h2
    | error e0 =>
      constructor
      · intro st2 h2
        rw [main_loop_cons_of_error numStr embed st p rest e0 hp] at h2
        cases h2
      · intro e st2 h2
        rw [main_loop_cons_of_error numStr embed st p rest e0 hp] at h2
        cases h2
        exact h

theorem assembleDatapoint_ok (p : ProductRecord) (emb : List ℚ) (dp : Datapoint)
    (h : assembleDatapoint p emb = .ok dp) :
    ∃ l, build_numeric_metadata p = .ok l ∧ dp = datapointOf p emb l := by
  rw [assembleDatapoint] at h
  cases hb : build_numeric_metadata p with
  | error e => rw [hb] at h; exact absurd h (by simp [Except.map])
  | ok l =>
    rw [hb] at h
    simp only [Except.map, Except.ok.injEq] at h
    exact ⟨l, rfl, h.symm⟩

/-- A record with every field populated, used to instantiate claims. -/
def sampleFull : ProductRecord :=
  { name := some "Classic Tee", description := some "Soft cotton tee",
    styleTags := some ["casual", "summer"], category := some "tops",
    subcategory := some "t-shirts", brand := some "Kiko", color := some "blue",
    occasion := some "beach", season := some "summer", sku := some "SKU1",
    currency := some "USD", imageUrl := some "http://img", price := some (.num 20),
    rating := some (.num 4) }

/-- The record with every field absent. -/
def emptyRecord : ProductRecord := {}

/-- A record exercising the id selection. -/
def skuRecord : ProductRecord := { sku := some "SKU1", name := some "Shirt" }

/-- Claim C1: `build_embedding_prompt` returns the newline join of exactly
the present, non-empty contributions of name, description, space-joined
styleTags, category and occasion, in this fixed order, with no blank lines
and no leading or trailing separator, and the empty string when all five
fields are absent. -/
theorem claim_C1 (p : ProductRecord) :
    build_embedding_prompt p = String.intercalate "\n" (promptContributions p)
      ∧ "" ∉ promptContributions p
      ∧ (p.name = none ∧ p.description = none ∧ p.styleTags = none
          ∧ p.category = none ∧ p.occasion = none → build_embedding_prompt p = "") := by
  refine ⟨build_embedding_prompt_eq p, promptContributions_ne_empty p, ?_⟩
  rintro ⟨h1, h2, h3, h4, h5⟩
  rw [build_embedding_prompt_eq p, promptContributions, h1, h2, h3, h4, h5]
  rfl

theorem claim_C1_witness :
    build_embedding_prompt emptyRecord = ""
      ∧ build_embedding_prompt sampleFull
          = String.intercalate "\n" (promptContributions sampleFull) :=
  ⟨(claim_C1 emptyRecord).2.2 ⟨rfl, rfl, rfl, rfl, rfl⟩, (claim_C1 sampleFull).1⟩

/-- Claim C2: `build_metadata` emits one `{namespace, allowList: [value]}`
entry per present, non-empty field among category, subcategory, brand,
color, occasion, season, in that fixed namespace order and with the value
uncoerced; the entry count equals the count of present non-empty fields,
and all six absent gives the empty list. -/
theorem claim_C2 (p : ProductRecord) :
    build_metadata p
        = ((catFields p).filter (fun kv => presentNonEmpty kv.2)).map
            (fun kv => { nspace := kv.1, allowList := [kv.2.getD ""] })
      ∧ (build_metadata p).length
          = ((catFields p).filter (fun kv => presentNonEmpty kv.2)).length
      ∧ (p.category = none ∧ p.subcategory = none ∧ p.brand = none ∧ p.color = none
          ∧ p.occasion = none ∧ p.season = none → build_metadata p = []) := by
  refine ⟨build_metadata_eq p, ?_, ?_⟩
  · rw [build_metadata_eq p, List.length_map]
  · rintro ⟨h1, h2, h3, h4, h5, h6⟩
    rw [build_metadata, h1, h2, h3, h4, h5, h6]
    rfl

theorem claim_C2_witness :
    build_metadata emptyRecord = []
      ∧ (build_metadata sampleFull).length
          = ((catFields sampleFull).filter (fun kv => presentNonEmpty kv.2)).length :=
  ⟨(claim_C2 emptyRecord).2.2 ⟨rfl, rfl, rfl, rfl, rfl, rfl⟩, (claim_C2 sampleFull).2.1⟩

/-- Claim C4: the assembled datapoint's id is the record's sku when that is
present and non-empty, and otherwise the record's name (including the
empty/undefined id when both are absent). -/
theorem claim_C4 (p : ProductRecord) (emb : List ℚ) (dp : Datapoint)
    (h : assembleDatapoint p emb = .ok dp) :
    (∀ s, p.sku = some s → s ≠ "" → dp.id = some s)
      ∧ ((p.sku = none ∨ p.sku = some "") → dp.id = p.name) := by
  obtain ⟨l, _, rfl⟩ := assembleDatapoint_ok p emb dp h
  constructor
  · intro s hs hne
    simp [datapointOf, pyOr, hs, hne]
  · rintro (hs | hs) <;> simp [datapointOf, pyOr, hs]

theorem claim_C4_witness :
    (datapointOf skuRecord [] []).id = some "SKU1"
      ∧ (datapointOf { name := some "Shirt", sku := some "" } [] []).id = some "Shirt" :=
  ⟨(claim_C4 skuRecord [] (datapointOf skuRecord [] []) rfl).1 "SKU1" rfl (by decide),
   (claim_C4 { name := some "Shirt", sku := some "" } []
      (datapointOf { name := some "Shirt", sku := some "" } [] []) rfl).2 (Or.inr rfl)⟩

/-- Claim C5: the assembled datapoint's crowding attribute is the record's
category (empty string when absent), its metadata copies name, description,
price, currency, imageUrl through verbatim, and absent metadata fields are
rendered as explicit JSON `null` (while the restrict list omits absent
fields altogether). -/
theorem claim_C5 (numStr : ℚ → String) (p : ProductRecord) (emb : List ℚ)
    (dp : Datapoint) (h : assembleDatapoint p emb = .ok dp) :
    (∀ s, p.category = some s → dp.crowdingAttribute = s)
      ∧ (p.category = none → dp.crowdingAttribute = "")
      ∧ dp.metadata.name = p.name
      ∧ dp.metadata.description = p.description
      ∧ dp.metadata.price = p.price
      ∧ dp.metadata.currency = p.currency
      ∧ dp.metadata.imageUrl = p.imageUrl
      ∧ (p.description = none → ("description", "null") ∈ metadataPairs numStr dp.metadata)
      ∧ (p.price = none → ("price", "null") ∈ metadataPairs numStr dp.metadata)
      ∧ (p.category = none → ∀ e ∈ dp.restricts, e.nspace ≠ "category") := by
  obtain ⟨l, _, rfl⟩ := assembleDatapoint_ok p emb dp h
  refine ⟨?_, ?_, rfl, rfl, rfl, rfl, rfl, ?_, ?_, ?_⟩
  · intro s hs
    simp [datapointOf, hs]
  · intro hs
    simp [datapointOf, hs]
  · intro hd
    simp [datapointOf, metadataPairs, jsonOptStr, hd]
  · intro hp2
    simp [datapointOf, metadataPairs, jsonOptJVal, hp2]
  · intro hc e he hns
    have he2 : e ∈ build_metadata p := by
      simpa [datapointOf] using he
    rw [build_metadata_eq] at he2
    rcases List.mem_map.mp he2 with ⟨kv, hkv, rfl⟩
    have hkv2 := List.of_mem_filter hkv
    have hkv1 := List.mem_of_mem_filter hkv
    simp only [catFields, hc, List.mem_cons, List.not_mem_nil, or_false] at hkv1
    rcases hkv1 with rfl | rfl | rfl | rfl | rfl | rfl
    · simp [presentNonEmpty] at hkv2
    all_goals simp_all

theorem claim_C5_witness :
    (datapointOf skuRecord [] []).crowdingAttribute = ""
      ∧ (datapointOf skuRecord [] []).metadata.name = skuRecord.name
      ∧ ("description", "null")
          ∈ metadataPairs (fun _ => "0") (datapointOf skuRecord [] []).metadata :=
  ⟨((claim_C5 (fun _ => "0") skuRecord [] (datapointOf skuRecord [] []) rfl).2.1) rfl,
   (claim_C5 (fun _ => "0") skuRecord [] (datapointOf skuRecord [] []) rfl).2.2.1,
   ((claim_C5 (fun _ => "0") skuRecord [] (datapointOf skuRecord [] []) rfl).2.2.2.2.2.2.2.1) rfl⟩

/-- Claim C3: `build_numeric_metadata` emits `{namespace, valueDouble:
float(value)}` exactly for each of price and rating that is present and
truthy; price 49.99 and rating 4.5 give exactly those two entries, and a
zero price yields no price entry (zero treated as absent). -/
theorem claim_C3 (p : ProductRecord) :
    (p.price = some (.num (4999/100)) ∧ p.rating = some (.num (9/2)) →
        build_numeric_metadata p
          = .ok [{ nspace := "price", valueDouble := 4999/100 },
                 { nspace := "rating", valueDouble := 9/2 }])
      ∧ (∀ l, build_numeric_metadata p = .ok l →
          (∀ q, ({ nspace := "price", valueDouble := q } : NumericRestrict) ∈ l
              ↔ ∃ v, p.price = some v ∧ jTruthy v = true ∧ pyFloat v = some q)
            ∧ (∀ q, ({ nspace := "rating", valueDouble := q } : NumericRestrict) ∈ l
              ↔ ∃ v, p.rating = some v ∧ jTruthy v = true ∧ pyFloat v = some q))
      ∧ (p.price = some (.num 0) → ∀ l, build_numeric_metadata p = .ok l →
          ∀ e ∈ l, e.nspace ≠ "price") := by
  have hmem : ∀ l, build_numeric_metadata p = .ok l →
      (∀ q, ({ nspace := "price", valueDouble := q } : NumericRestrict) ∈ l
          ↔ ∃ v, p.price = some v ∧ jTruthy v = true ∧ pyFloat v = some q)
        ∧ (∀ q, ({ nspace := "rating", valueDouble := q } : NumericRestrict) ∈ l
          ↔ ∃ v, p.rating = some v ∧ jTruthy v = true ∧ pyFloat v = some q) := by
    intro l hl
    rw [build_numeric_metadata_ok_iff] at hl
    obtain ⟨lp, lr, hp, hr, rfl⟩ := hl
    rw [numericEntries_ok_iff] at hp hr
    constructor
    · intro q
      rw [List.mem_append]
      constructor
      · rintro (hin | hin)
        · rcases hp with ⟨rfl, _⟩ | ⟨x, q0, hx, ht, hf, rfl⟩
          · simp at hin
          · simp only [List.mem_cons, List.not_mem_nil, or_false,
              NumericRestrict.mk.injEq] at hin
            exact ⟨x, hx, ht, hin.2 ▸ hf⟩
        · rcases hr with ⟨rfl, _⟩ | ⟨x, q0, hx, ht, hf, rfl⟩
          · simp at hin
          · simp only [List.mem_cons, List.not_mem_nil, or_false,
              NumericRestrict.mk.injEq] at hin
            exact absurd hin.1 (by decide)
      · rintro ⟨v, hv, ht, hf⟩
        left
        rcases hp with ⟨rfl, hcase⟩ | ⟨x, q0, hx, ht0, hf0, rfl⟩
        · rcases hcase with hnone | ⟨x, hx, ht0⟩
          · rw [hnone] at hv; cases hv
          · rw [hx] at hv; cases hv; rw [ht] at ht0; cases ht0
        · rw [hx] at hv
          cases hv
          rw [hf] at hf0
          cases hf0
          simp
    · intro q
      rw [List.mem_append]
      constructor
      · rintro (hin | hin)
        · rcases hp with ⟨rfl, _⟩ | ⟨x, q0, hx, ht, hf, rfl⟩
          · simp at hin
          · simp only [List.mem_cons, List.not_mem_nil, or_false,
              NumericRestrict.mk.injEq] at hin
            exact absurd hin.1 (by decide)
        · rcases hr with ⟨rfl, _⟩ | ⟨x, q0, hx, ht, hf, rfl⟩
          · simp at hin
          · simp only [List.mem_cons, List.not_mem_nil, or_false,
              NumericRestrict.mk.injEq] at hin
            exact ⟨x, hx, ht, hin.2 ▸ hf⟩
      · rintro ⟨v, hv, ht, hf⟩
        right
        rcases hr with ⟨rfl, hcase⟩ | ⟨x, q0, hx, ht0, hf0, rfl⟩
        · rcases hcase with hnone | ⟨x, hx, ht0⟩
          · rw [hnone] at hv; cases hv
          · rw [hx] at hv; cases hv; rw [ht] at ht0; cases ht0
        · rw [hx] at hv
          cases hv
          rw [hf] at hf0
          cases hf0
          simp
  refine ⟨?_, hmem, ?_⟩
  · rintro ⟨hp, hr⟩
    rw [build_numeric_metadata, hp, hr]
    simp [numericEntries, jTruthy, pyFloat, Bind.bind, Except.bind, Pure.pure, Except.pure]
  · intro hp l hl e he hns
    have he2 : ({ nspace := e.nspace, valueDouble := e.valueDouble } : NumericRestrict) ∈ l :=
      he
    rw [hns] at he2
    obtain ⟨v, hv, ht, _⟩ := ((hmem l hl).1 e.valueDouble).mp he2
    rw [hp] at hv
    cases hv
    simp [jTruthy] at ht

/-- A record with price 49.99 and rating 4.5. -/
def pricedRecord : ProductRecord :=
  { price := some (.num (4999/100)), rating := some (.num (9/2)) }

/-- A record whose price is zero. -/
def zeroPriceRecord : ProductRecord := { price := some (.num 0) }

theorem claim_C3_witness :
    build_numeric_metadata pricedRecord
        = .ok [{ nspace := "price", valueDouble := 4999/100 },
               { nspace := "rating", valueDouble := 9/2 }]
      ∧ (∀ e ∈ ([] : List NumericRestrict), e.nspace ≠ "price") :=
  ⟨(claim_C3 pricedRecord).1 ⟨rfl, rfl⟩,
   (claim_C3 zeroPriceRecord).2.2 rfl [] (by decide)⟩

/-- Claim C6: the numeric conversion fails loudly — whenever price or
rating is present and truthy but `float(...)` cannot parse it, the builder
raises instead of silently coercing. -/
theorem claim_C6 (p : ProductRecord) :
    (∀ v, p.price = some v → jTruthy v = true → pyFloat v = none →
        ∃ e, build_numeric_metadata p = .error e)
      ∧ (∀ v, p.rating = some v → jTruthy v = true → pyFloat v = none →
        ∃ e, build_numeric_metadata p = .error e) := by
  constructor
  · intro v hv ht hf
    refine ⟨"could not convert value to float: price", ?_⟩
    rw [build_numeric_metadata_error_iff]
    left
    rw [numericEntries_error_iff]
    exact ⟨rfl, v, hv, ht, hf⟩
  · intro v hv ht hf
    cases hprice : numericEntries "price" p.price with
    | error e0 =>
      refine ⟨e0, ?_⟩
      rw [build_numeric_metadata_error_iff]
      exact Or.inl hprice
    | ok lp =>
      refine ⟨"could not convert value to float: rating", ?_⟩
      rw [build_numeric_metadata_error_iff]
      refine Or.inr ⟨⟨lp, hprice⟩, ?_⟩
      rw [numericEntries_error_iff]
      exact ⟨rfl, v, hv, ht, hf⟩

/-- A record whose price cannot be parsed as a float. -/
def badPriceRecord : ProductRecord := { price := some (.str "not a number") }

theorem claim_C6_witness :
    ∃ e, build_numeric_metadata badPriceRecord = .error e :=
  (claim_C6 badPriceRecord).1 (.str "not a number") rfl (by decide) (by decide)

/-- Claim C9: the numeric restrict list has length at most two, only the
price and rating namespaces ever occur in it, and when both entries are
present the price entry precedes the rating entry. -/
theorem claim_C9 (p : ProductRecord) (l : List NumericRestrict)
    (h : build_numeric_metadata p = .ok l) :
    l.length ≤ 2
      ∧ (∀ e ∈ l, e.nspace = "price" ∨ e.nspace = "rating")
      ∧ (l = []
          ∨ (∃ e, l = [e] ∧ (e.nspace = "price" ∨ e.nspace = "rating"))
          ∨ (∃ e1 e2, l = [e1, e2] ∧ e1.nspace = "price" ∧ e2.nspace = "rating")) := by
  rw [build_numeric_metadata_ok_iff] at h
  obtain ⟨lp, lr, hp, hr, rfl⟩ := h
  rw [numericEntries_ok_iff] at hp hr
  have hp' : lp = [] ∨ ∃ q, lp = [{ nspace := "price", valueDouble := q }] := by
    rcases hp with ⟨rfl, _⟩ | ⟨x, q, _, _, _, rfl⟩
    · exact Or.inl rfl
    · exact Or.inr ⟨q, rfl⟩
  have hr' : lr = [] ∨ ∃ q, lr = [{ nspace := "rating", valueDouble := q }] := by
    rcases hr with ⟨rfl, _⟩ | ⟨x, q, _, _, _, rfl⟩
    · exact Or.inl rfl
    · exact Or.inr ⟨q, rfl⟩
  rcases hp' with rfl | ⟨q1, rfl⟩ <;> rcases hr' with rfl | ⟨q2, rfl⟩ <;>
    refine ⟨by simp, ?_, ?_⟩ <;>
      first
        | (simp; done)
        | (simp
           exact ⟨_, _, ⟨rfl, rfl⟩, rfl, rfl⟩)

theorem claim_C9_witness :
    ([] : List NumericRestrict).length ≤ 2
      ∧ (∀ e ∈ ([] : List NumericRestrict), e.nspace = "price" ∨ e.nspace = "rating")
      ∧ (([] : List NumericRestrict) = []
          ∨ (∃ e, ([] : List NumericRestrict) = [e]
              ∧ (e.nspace = "price" ∨ e.nspace = "rating"))
          ∨ (∃ e1 e2, ([] : List NumericRestrict) = [e1, e2]
              ∧ e1.nspace = "price" ∧ e2.nspace = "rating")) :=
  claim_C9 emptyRecord [] rfl

/-- Claim C7: for every input list of records whose numeric fields convert,
the pipeline writes exactly one serialized line per record — newline
terminated, in input order, each line a pure function of one record — so
the output line count equals the input record count. -/
theorem claim_C7 (numStr : ℚ → String) (embed : String → List ℚ)
    (products : List ProductRecord)
    (hn : ∀ q, noNL (numStr q))
    (hok : ∀ p ∈ products, ∃ l, build_numeric_metadata p = .ok l) :
    ∃ st : OutState,
      main_loop numStr embed ⟨"", ""⟩ products = .ok st
        ∧ st.jsonl = linesConcat (products.map (lineFor numStr embed))
        ∧ countNL st.jsonl = products.length := by
  refine ⟨_, main_loop_ok numStr embed products ⟨"", ""⟩ hok, ?_, ?_⟩
  · show "" ++ linesConcat (products.map (lineFor numStr embed))
        = linesConcat (products.map (lineFor numStr embed))
    exact String.empty_append _
  · show countNL ("" ++ linesConcat (products.map (lineFor numStr embed)))
        = products.length
    rw [String.empty_append]
    have hone : ∀ s ∈ products.map (lineFor numStr embed), countNL s = 1 := by
      intro s hs
      rcases List.mem_map.mp hs with ⟨p, _, rfl⟩
      exact countNL_lineFor numStr embed hn p
    rw [countNL_linesConcat _ hone, List.length_map]

theorem claim_C7_witness :
    ∃ st : OutState,
      main_loop (fun _ => "0") (fun _ => []) ⟨"", ""⟩ [skuRecord] = .ok st
        ∧ st.jsonl = linesConcat ([skuRecord].map (lineFor (fun _ => "0") (fun _ => [])))
        ∧ countNL st.jsonl = [skuRecord].length :=
  claim_C7 (fun _ => "0") (fun _ => []) [skuRecord]
    (fun _ => show noNL "0" by decide)
    (fun p hp => by rw [List.mem_singleton] at hp; rw [hp]; exact ⟨[], rfl⟩)

/-- Claim C8: the three builders are total on records whose optional fields
are absent, empty or null (more generally, whose numeric fields are absent,
null, empty, boolean or numeric): the prompt is built, the categorical list
has at most one entry per namespace, and the numeric builder succeeds with
at most two entries instead of failing. -/
theorem claim_C8 (p : ProductRecord) (hp : benignNum p.price) (hr : benignNum p.rating) :
    (∃ nums, build_numeric_metadata p = .ok nums ∧ nums.length ≤ 2)
      ∧ build_embedding_prompt p = String.intercalate "\n" (promptContributions p)
      ∧ (build_metadata p).length ≤ 6 := by
  have harm : ∀ ns v, benignNum v → ∃ l2, numericEntries ns v = .ok l2 ∧ l2.length ≤ 1 := by
    intro ns v hv
    rcases hv with rfl | rfl | rfl | ⟨q, rfl⟩ | ⟨b, rfl⟩
    · exact ⟨[], rfl, by norm_num⟩
    · exact ⟨[], by simp [numericEntries, jTruthy], by norm_num⟩
    · exact ⟨[], by simp [numericEntries, jTruthy], by norm_num⟩
    · by_cases hq : jTruthy (.num q)
      · exact ⟨[{ nspace := ns, valueDouble := q }],
          by simp [numericEntries, hq, pyFloat], by norm_num⟩
      · exact ⟨[], by simp [numericEntries, hq], by norm_num⟩
    · cases b with
      | false => exact ⟨[], by simp [numericEntries, jTruthy], by norm_num⟩
      | true => exact ⟨[{ nspace := ns, valueDouble := 1 }],
          by simp [numericEntries, jTruthy, pyFloat], by norm_num⟩
  obtain ⟨lp, hlp, hlp1⟩ := harm "price" p.price hp
  obtain ⟨lr, hlr, hlr1⟩ := harm "rating" p.rating hr
  refine ⟨⟨lp ++ lr,
      (build_numeric_metadata_ok_iff p (lp ++ lr)).mpr ⟨lp, lr, hlp, hlr, rfl⟩, ?_⟩,
    build_embedding_prompt_eq p, ?_⟩
  · rw [List.length_append]
    omega
  · rw [build_metadata_eq p, List.length_map]
    exact le_of_le_of_eq (List.length_filter_le _ _) (by simp [catFields])

theorem claim_C8_witness :
    ∃ nums, build_numeric_metadata emptyRecord = .ok nums ∧ nums.length ≤ 2 :=
  (claim_C8 emptyRecord (Or.inl rfl) (Or.inl rfl)).1

/-- Claim C10: the two output destinations always stay in sync — after
every record the same serialized line went to both, so in whatever state
the loop ends, success or uncaught error, the two contents are equal. -/
theorem claim_C10 (numStr : ℚ → String) (embed : String → List ℚ)
    (products : List ProductRecord) :
    (∀ st, main_loop numStr embed ⟨"", ""⟩ products = .ok st → st.jsonl = st.ingest)
      ∧ (∀ e st, main_loop numStr embed ⟨"", ""⟩ products = .error (e, st)
          → st.jsonl = st.ingest) :=
  main_loop_sync numStr embed products ⟨"", ""⟩ rfl

theorem claim_C10_witness :
    (writeBoth (dumpsDatapoint (fun _ => "0") (datapointOf skuRecord [] [])) ⟨"", ""⟩).jsonl
      = (writeBoth (dumpsDatapoint (fun _ => "0") (datapointOf skuRecord [] []))
          ⟨"", ""⟩).ingest :=
  (claim_C10 (fun _ => "0") (fun _ => []) [skuRecord]).1 _ rfl
